import Mathlib

/-!
Verification of the adaptive-css semantic color-selection algorithm.

This file embeds the core of `src/generator.ts` (class `ColorSystemGenerator`)
as executable Lean definitions and proves properties of the selection
algorithm stated in the specification.

Modelling conventions:
* A color is represented by its rendered string (`toColorString` in the
  source) together with its WCAG relative luminance as a rational number.
  Color parsing/formatting is an out-of-scope collaborator of the system
  (spec section 1); the composite `Color.parse(c.toColorString())`, which the
  generator uses to re-resolve colors it has itself rendered, is embedded as
  the identity on the represented color.
* The external adaptive-ui primitives `contrastSwatch` and
  `blackOrWhiteByContrast` are not part of this repository; they are
  modelled from the spec (section 6), which fixes their interfaces.
* JavaScript array indexing with an out-of-range or negative index yields
  `undefined`; interpolating `undefined` into a template string renders the
  string "undefined".  Both behaviors are embedded explicitly (`jsIndex`,
  `jsIndexStr`).  `Array.prototype.findIndex` returning -1 is embedded by
  `jsFindIndex`.
-/

set_option maxRecDepth 40000

namespace AdaptiveCss

/-- A color: its rendered color string and its WCAG relative luminance. -/
structure Color where
  str : String
  lum : ℚ
deriving Repr, DecidableEq

/-- Pure white, `Color.parse("#ffffff")` in the source (luminance 1). -/
def white : Color := ⟨"#ffffff", 1⟩

/-- Pure black, `Color.parse("#000000")` in the source (luminance 0). -/
def black : Color := ⟨"#000000", 0⟩

/-- WCAG contrast ratio, `getContrastRatio` in generator.ts:
`(max(l1,l2) + 0.05) / (min(l1,l2) + 0.05)`. -/
def contrastRatio (c1 c2 : Color) : ℚ :=
  (max c1.lum c2.lum + 1/20) / (min c1.lum c2.lum + 1/20)

/-- Modelled from the spec: the fallback of the external adaptive-ui
`contrastSwatch` collaborator — the highest-contrast swatch of the palette
against the reference, the earliest one in palette order among ties
(spec section 6).  On an empty palette the result is a junk value; the
palettes produced by the external palette generator are never empty. -/
def maxContrastSwatch : List Color → Color → Color
  | [], _ => black
  | c :: cs, reference =>
      cs.foldl
        (fun best s =>
          if contrastRatio best reference < contrastRatio s reference then s else best)
        c

/-- Modelled from the spec: the external adaptive-ui `contrastSwatch`
collaborator, `bestContrastSwatch(palette, reference, minRatio)` in the spec
(section 6): scan the palette in order and return the first swatch meeting
`minRatio`, falling back to the highest-contrast swatch if none meets it. -/
def contrastSwatch (palette : List Color) (reference : Color) (minRatio : ℚ) : Color :=
  match palette.find? (fun s => decide (minRatio ≤ contrastRatio s reference)) with
  | some s => s
  | none => maxContrastSwatch palette reference

/-- Modelled from the spec: the external adaptive-ui `blackOrWhiteByContrast`
collaborator (spec sections 4.2 and 6): if both black and white meet
`minRatio` against the reference, pick per the `defaultBlack` bias; if only
one meets it, pick that one; if neither does, pick the one with the higher
ratio (best effort). -/
def blackOrWhiteByContrast (reference : Color) (minRatio : ℚ) (defaultBlack : Bool) : Color :=
  let cb := contrastRatio black reference
  let cw := contrastRatio white reference
  if minRatio ≤ cb ∧ minRatio ≤ cw then (if defaultBlack then black else white)
  else if minRatio ≤ cb then black
  else if minRatio ≤ cw then white
  else if cb < cw then white else black

/-- The policy part of the merged configuration that the selection algorithm
reads.  `preferWhiteText` is an `Option Bool` because the exported
`ColorSystemConfig` type does not declare that property and `defaultConfig`
does not set it: a JavaScript read of the absent property yields `undefined`,
which every use site consumes as a boolean test (falsy). -/
structure GenSettings where
  contrastLevelAAA : Bool
  preferWhiteText : Option Bool
deriving Repr, DecidableEq

/-- JavaScript truthiness of a possibly-absent boolean property:
`undefined` is falsy. -/
def jsTruthy (o : Option Bool) : Bool := o.getD false

/-- Constructor line 26: `this.contrastRatio = this.config.contrastLevel === "AAA" ? 7 : 4.5`. -/
def requiredRatio (s : GenSettings) : ℚ := if s.contrastLevelAAA then 7 else 9/2

/-- `getForegroundColor` (generator.ts lines 62-66):
`blackOrWhiteByContrast(background, this.contrastRatio, !preferWhiteText)`. -/
def getForegroundColor (s : GenSettings) (background : Color) : Color :=
  blackOrWhiteByContrast background (requiredRatio s) (!(jsTruthy s.preferWhiteText))

/-- `getContrastColor` (generator.ts lines 58-60):
`contrastSwatch(palette, reference, this.contrastRatio)`.  Note that the
ratio passed is always the text ratio `this.contrastRatio`, never 3.0. -/
def getContrastColor (s : GenSettings) (palette : List Color) (reference : Color) : Color :=
  contrastSwatch palette reference (requiredRatio s)

/-- One entry of the `allSwatches` array built by
`getAccentColorWithPreferredText` (generator.ts lines 107-119). -/
structure SwatchInfo where
  index : ℕ
  swatch : Color
  bgContrast : ℚ
  fgContrast : ℚ
deriving Repr, DecidableEq

/-- `getAccentColorWithPreferredText` (generator.ts lines 94-160).
Returns the chosen accent color and the `preferredFgAccessible` flag.

Tier 1 (`perfectSwatches`): swatches with `bgContrast >= 3` and
`fgContrast >= this.contrastRatio`; pick the one with the highest
`bgContrast` (the source sorts descending with a stable sort and takes the
first element, so the earliest swatch among ties wins — the fold below keeps
the earliest maximum).  Tier 2 (`visibleSwatches`): swatches with
`bgContrast >= 3`; pick the highest index if `preferWhiteText` is truthy,
the lowest index otherwise.  Tier 3: `contrastSwatch` at the text ratio. -/
def getAccentColorWithPreferredText (s : GenSettings) (palette : List Color)
    (background : Color) : Color × Bool :=
  let preferWhite := jsTruthy s.preferWhiteText
  let preferredFg := if preferWhite then white else black
  let allSwatches : List SwatchInfo :=
    palette.enum.map (fun p =>
      ⟨p.1, p.2, contrastRatio p.2 background, contrastRatio p.2 preferredFg⟩)
  let perfectSwatches := allSwatches.filter
    (fun i => decide (3 ≤ i.bgContrast) && decide (requiredRatio s ≤ i.fgContrast))
  match perfectSwatches with
  | p :: ps =>
      let sel := ps.foldl (fun best q => if best.bgContrast < q.bgContrast then q else best) p
      (sel.swatch, true)
  | [] =>
      let visibleSwatches := allSwatches.filter (fun i => decide (3 ≤ i.bgContrast))
      match visibleSwatches with
      | v :: vs =>
          let sel :=
            if preferWhite then
              vs.foldl (fun best q => if best.index < q.index then q else best) v
            else
              vs.foldl (fun best q => if q.index < best.index then q else best) v
          (sel.swatch, decide (requiredRatio s ≤ sel.fgContrast))
      | [] => (contrastSwatch palette background (requiredRatio s), false)

/-- JavaScript array indexing: `l[i]` is the element when `0 <= i < length`,
`undefined` (here `none`) otherwise. -/
def jsIndex {α : Type} (l : List α) (i : ℤ) : Option α :=
  if h : 0 ≤ i ∧ i.toNat < l.length then some (l.get ⟨i.toNat, h.2⟩) else none

/-- Interpolating a JavaScript index access into a template string:
an out-of-range access renders as the string "undefined". -/
def jsIndexStr (l : List String) (i : ℤ) : String := (jsIndex l i).getD "undefined"

/-- `Array.prototype.findIndex`: index of the first match, -1 if none. -/
def jsFindIndex {α : Type} (p : α → Bool) (l : List α) : ℤ :=
  match l.findIdx? p with
  | some n => (n : ℤ)
  | none => -1

/-- The semantic token values computed by `generateSemanticTokens`
(generator.ts lines 183-275) for one mode, before being spliced into CSS
lines.  Values the source computes by JavaScript array indexing (which can
yield `undefined`) are kept as strings; values the source computes as color
objects are kept as colors (their emitted text is `Color.str`). -/
structure ModeTokens where
  bg : String
  bgSubtle : String
  bgElevated : String
  bgSurface : String
  bgColor : Color
  fg : Color
  fgMuted : Color
  border : String
  borderSubtle : String
  accent : Color
  accentHover : String
  accentActive : String
  accentFg : Color
  focusRing : Color
  additional : List (String × Color × Color)
deriving Repr, DecidableEq

/-- `generateSemanticTokens` (generator.ts lines 183-275).  `neutral` and
`accent` are the swatch lists of the two required palettes;
`additionalPalettes` lists the remaining palettes in registry order (the
source iterates the palette map and skips "neutral" and "accent").
Returns `none` when `Color.parse(neutral.swatches[bgIdx])!` would blow up on
an out-of-range background index (the only token computation that
dereferences a possibly-undefined value). -/
def generateSemanticTokens (s : GenSettings) (neutral accent : List Color)
    (additionalPalettes : List (String × List Color)) (isDark : Bool) :
    Option ModeTokens :=
  let neutralStrs := neutral.map Color.str
  let accentStrs := accent.map Color.str
  let lastIdx : ℤ := (neutral.length : ℤ) - 1
  let bgIdx : ℤ := if isDark then lastIdx - 2 else 1
  let bgSubtleIdx : ℤ := if isDark then lastIdx - 1 else 0
  let bgElevatedIdx : ℤ := if isDark then lastIdx - 4 else 2
  let bgSurfaceIdx : ℤ := if isDark then lastIdx - 3 else 1
  match jsIndex neutral bgIdx with
  | none => none
  | some bgColor =>
    let fg := getForegroundColor s bgColor
    let fgMuted := getContrastColor s neutral bgColor
    let border := getContrastColor s neutral bgColor
    let borderIdx : ℤ := jsFindIndex (fun c => c.str == border.str) neutral
    let borderSubtleIdx : ℤ := max 0 (borderIdx - (if isDark then 2 else -2))
    let accentResult := getAccentColorWithPreferredText s accent bgColor
    let accentColor := accentResult.1
    let accentHoverIdx : ℤ := jsFindIndex (fun c => c.str == accentColor.str) accent
    let accentHover := jsIndexStr accentStrs (max 0 (accentHoverIdx - (if isDark then -2 else 2)))
    let accentActive := jsIndexStr accentStrs (min lastIdx (accentHoverIdx + (if isDark then -2 else 2)))
    let accentFg := if accentResult.2
      then (if jsTruthy s.preferWhiteText then white else black)
      else getForegroundColor s accentColor
    let focusRing := getContrastColor s accent bgColor
    let additional := additionalPalettes.map (fun kv =>
      let color := getContrastColor s kv.2 bgColor
      (kv.1, color, getForegroundColor s color))
    some {
      bg := jsIndexStr neutralStrs bgIdx
      bgSubtle := jsIndexStr neutralStrs bgSubtleIdx
      bgElevated := jsIndexStr neutralStrs bgElevatedIdx
      bgSurface := jsIndexStr neutralStrs bgSurfaceIdx
      bgColor := bgColor
      fg := fg
      fgMuted := fgMuted
      border := jsIndexStr neutralStrs borderIdx
      borderSubtle := jsIndexStr neutralStrs borderSubtleIdx
      accent := accentColor
      accentHover := accentHover
      accentActive := accentActive
      accentFg := accentFg
      focusRing := focusRing
      additional := additional
    }

/-- A palette entry in `config.palettes`: the source accepts either a plain
base color string or a `PaletteConfig` object `{ base, name? }`
(generator.ts lines 32-34, types.ts `PaletteConfig`). -/
inductive PaletteValue where
  | plain (base : String)
  | cfg (base : String) (name : Option String)
deriving Repr, DecidableEq

/-- The base color string of a palette entry after the string-or-object
resolution `typeof value === "string" ? { base: value } : value`. -/
def PaletteValue.base : PaletteValue → String
  | .plain b => b
  | .cfg b _ => b

/-- The error taxonomy of the generator.  `invalidColor` is the
`Invalid color "<base>" for palette "<key>"` error thrown by
`generatePalettes` (generator.ts line 38); `paletteNotFound` is the
`Palette "<name>" not found` error thrown by `getPalette` (line 53);
`typeError` models the JavaScript TypeError that dereferencing an undefined
background swatch would raise. -/
inductive GenError where
  | invalidColor (base key : String)
  | paletteNotFound (name : String)
  | typeError
deriving Repr, DecidableEq

/-- `generatePalettes` (generator.ts lines 30-48), parameterized by the
out-of-scope collaborators `parse` (`Color.parse`, which returns null on an
unparseable string) and `buildPalette` (`PaletteRGB.from` followed by
reading its swatches).  Entries are processed in `Object.entries` order and
the first unparseable base color aborts the build. -/
def generatePalettes (parse : String → Option Color) (buildPalette : Color → List Color) :
    List (String × PaletteValue) → Except GenError (List (String × List Color))
  | [] => .ok []
  | (key, v) :: rest =>
      match parse v.base with
      | none => .error (.invalidColor v.base key)
      | some c =>
          match generatePalettes parse buildPalette rest with
          | .error e => .error e
          | .ok tail => .ok ((key, buildPalette c) :: tail)

/-- `getPalette` (generator.ts lines 50-56): look up a palette by name,
failing with the palette-not-found error when absent. -/
def getPalette (pals : List (String × List Color)) (name : String) :
    Except GenError (List Color) :=
  match pals.find? (fun kv => kv.1 == name) with
  | some kv => .ok kv.2
  | none => .error (.paletteNotFound name)

/-- The user-facing configuration (types.ts `ColorSystemConfig` plus the
constructor merge with `defaultConfig`).  All optional fields are `Option`;
the merge fills the ones `defaultConfig` sets.  `preferWhiteText` is NOT
declared by the TypeScript type and is NOT set by `defaultConfig`, so after
the merge it is whatever the caller's raw object carried - possibly absent.
The source field `prefix` is called `varPrefix` here. -/
structure ColorSystemConfig where
  palettes : List (String × PaletteValue)
  contrastLevel : Option String := none
  includePaletteVars : Option Bool := none
  includeUtilityClasses : Option Bool := none
  darkModeSelector : Option String := none
  respectSystemPreference : Option Bool := none
  varPrefix : Option String := none
  preferWhiteText : Option Bool := none
deriving Repr

/-- The contrast-level policy after the defaults merge:
`defaultConfig.contrastLevel = "AA"`. -/
def mergedContrastLevel (c : ColorSystemConfig) : String := c.contrastLevel.getD "AA"

/-- The policy settings the selection algorithm reads, extracted from the
merged configuration (constructor lines 25-26). -/
def settingsOf (c : ColorSystemConfig) : GenSettings :=
  ⟨mergedContrastLevel c == "AAA", c.preferWhiteText⟩

/-- `varName` (generator.ts lines 162-165): the empty prefix is falsy in
JavaScript, so it contributes no dash. -/
def varName (p : String) (name : String) : String :=
  "--" ++ (if p = "" then "" else p ++ "-") ++ name

/-- One `--name: value;` CSS custom-property line of the semantic-token
block. -/
def tokenLine (p name value : String) : String :=
  "  " ++ varName p name ++ ": " ++ value ++ ";"

/-- The CSS lines of `generateSemanticTokens` (generator.ts lines 243-274)
rendered from the computed token values. -/
def renderModeTokens (p : String) (t : ModeTokens) : String :=
  (([
    "  /* Backgrounds */",
    tokenLine p "color-bg" t.bg,
    tokenLine p "color-bg-subtle" t.bgSubtle,
    tokenLine p "color-bg-elevated" t.bgElevated,
    tokenLine p "color-bg-surface" t.bgSurface,
    "",
    "  /* Foregrounds */",
    tokenLine p "color-fg" t.fg.str,
    tokenLine p "color-fg-muted" t.fgMuted.str,
    "",
    "  /* Borders */",
    tokenLine p "color-border" t.border,
    tokenLine p "color-border-subtle" t.borderSubtle,
    "",
    "  /* Accent */",
    tokenLine p "color-accent" t.accent.str,
    tokenLine p "color-accent-hover" t.accentHover,
    tokenLine p "color-accent-active" t.accentActive,
    tokenLine p "color-accent-fg" t.accentFg.str,
    "",
    "  /* Focus - WCAG 2.2 SC 2.4.13 Focus Appearance */",
    tokenLine p "color-focus-ring" t.focusRing.str
  ] ++ (if t.additional.isEmpty then [] else
    ["", "  /* Additional Colors */"] ++
      t.additional.foldr (fun kv acc =>
        tokenLine p ("color-" ++ kv.1) kv.2.1.str ::
          tokenLine p ("color-" ++ kv.1 ++ "-fg") kv.2.2.str :: acc) [])) :
    List String).intersperse "\n" |>.foldl (· ++ ·) ""

/-- `generate` (generator.ts lines 306-351), composed with the palette
build of the constructor: the whole `generateCSS` entry point
(lines 371-374).  The palette build runs first (in the constructor); any
invalid base color aborts before any CSS text exists, and a missing
"neutral"/"accent" palette aborts inside the first `generateSemanticTokens`
call.  CSS string assembly is an out-of-scope templating concern (spec
section 1), so the assembly below is abbreviated to the root and dark-mode
sections (the header, palette-var, media-query and utility sections
selected by the output toggles are omitted); this is enough to settle the
error-propagation claims, which only distinguish error from ok. -/
def generateCSS (parse : String → Option Color) (buildPalette : Color → List Color)
    (config : ColorSystemConfig) : Except GenError String := do
  let pals ← generatePalettes parse buildPalette config.palettes
  let s := settingsOf config
  let p := config.varPrefix.getD ""
  let neutral ← getPalette pals "neutral"
  let accent ← getPalette pals "accent"
  let adds := pals.filter (fun kv => !(kv.1 == "neutral" || kv.1 == "accent"))
  let light ← match generateSemanticTokens s neutral accent adds false with
    | some t => .ok t
    | none => .error .typeError
  let dark ← match generateSemanticTokens s neutral accent adds true with
    | some t => .ok t
    | none => .error .typeError
  .ok (String.intercalate "\n"
    [":root \x7b", renderModeTokens p light, "\x7d",
     config.darkModeSelector.getD "[data-theme=\x22dark\x22]" ++ ",", ".dark \x7b",
     renderModeTokens p dark, "\x7d"])

/-! Concrete inputs used by witnesses and counterexamples.  Luminances are
exact rationals; strings are arbitrary distinct labels standing for the
rendered color strings. -/

/-- A light-to-dark neutral palette of 3 swatches (light bg has
luminance 9/10). -/
def exNeutral : List Color := [⟨"n0", 19/20⟩, ⟨"n1", 9/10⟩, ⟨"n2", 1/20⟩]

/-- A light-to-dark accent palette of 4 swatches.  Against the light
background (luminance 9/10): a0 fails the 3:1 bar; a1 and a2 pass it and
allow black text at AA but not AAA; a3 passes the bar but is too dark for
black text. -/
def exAccent : List Color := [⟨"a0", 4/5⟩, ⟨"a1", 1/4⟩, ⟨"a2", 7/40⟩, ⟨"a3", 1/20⟩]

/-- A neutral palette on which the first swatch clearing 3:1 against the
background (m2) differs from the first swatch clearing 4.5:1 (m3). -/
def exNeutralC3 : List Color := [⟨"m0", 19/20⟩, ⟨"m1", 9/10⟩, ⟨"m2", 1/4⟩, ⟨"m3", 1/10⟩]

/-- A 12-swatch light-to-dark neutral palette (minimal plausible length per
the spec). -/
def exNeutral12 : List Color :=
  [⟨"v0", 19/20⟩, ⟨"v1", 9/10⟩, ⟨"v2", 17/20⟩, ⟨"v3", 4/5⟩, ⟨"v4", 7/10⟩, ⟨"v5", 3/5⟩,
   ⟨"v6", 1/2⟩, ⟨"v7", 2/5⟩, ⟨"v8", 3/10⟩, ⟨"v9", 1/5⟩, ⟨"v10", 1/10⟩, ⟨"v11", 1/50⟩]

/-- A 12-swatch light-to-dark accent palette whose lightest swatch is the
only one clearing 3:1 against the dark-mode background of `exNeutral12`. -/
def exAccent12 : List Color :=
  [⟨"w0", 19/20⟩, ⟨"w1", 3/20⟩, ⟨"w2", 7/50⟩, ⟨"w3", 13/100⟩, ⟨"w4", 3/25⟩, ⟨"w5", 11/100⟩,
   ⟨"w6", 1/10⟩, ⟨"w7", 9/100⟩, ⟨"w8", 2/25⟩, ⟨"w9", 7/100⟩, ⟨"w10", 3/50⟩, ⟨"w11", 1/20⟩]

/-- A two-swatch accent palette that lands in Tier 2 against a light
background of luminance 9/10: both swatches clear 3:1 but neither allows
black text at 4.5:1. -/
def exAccentT2 : List Color := [⟨"t0", 1/10⟩, ⟨"t1", 1/20⟩]

/-- A light background color of luminance 9/10. -/
def exBg : Color := ⟨"bg", 9/10⟩

/-- One additional (extra) semantic palette, keyed "warning". -/
def exAdds : List (String × List Color) := [("warning", [⟨"x0", 1/10⟩, ⟨"x1", 3/5⟩])]

/-- AA settings with `preferWhiteText` absent. -/
def settingsAA : GenSettings := ⟨false, none⟩

/-- AAA settings with `preferWhiteText` absent. -/
def settingsAAA : GenSettings := ⟨true, none⟩

/-- A concrete parse collaborator for witnesses: every string except
"not-a-color" parses to a mid-gray color. -/
def exParse : String → Option Color :=
  fun st => if st = "not-a-color" then none else some ⟨st, 1/2⟩

/-- A concrete palette-build collaborator for witnesses. -/
def exBuild : Color → List Color := fun c => [c]

/-- A configuration whose neutral base color does not parse. -/
def exConfig : ColorSystemConfig :=
  { palettes := [("neutral", .plain "not-a-color"), ("accent", .plain "#3B82F6")] }

/-- The default fallback token record, for extracting a concrete
`ModeTokens` value from an `Option` in closed statements. -/
def junkTokens : ModeTokens :=
  ⟨"", "", "", "", black, black, black, "", "", black, "", "", black, black, []⟩

/-! Helper lemmas about the selection folds and the spec-modelled
collaborator primitives. -/

theorem contrastRatio_comm (c1 c2 : Color) :
    contrastRatio c1 c2 = contrastRatio c2 c1 := by
  unfold contrastRatio
  rw [max_comm, min_comm]

theorem foldl_maxBy_mem {α β : Type} [LinearOrder β] (f : α → β) (a : α) (l : List α) :
    l.foldl (fun best q => if f best < f q then q else best) a ∈ a :: l := by
  induction l generalizing a with
  | nil => simp
  | cons c cs ih =>
    simp only [List.foldl_cons]
    have h := ih (if f a < f c then c else a)
    rcases List.mem_cons.1 h with h1 | h1
    · rw [h1]; split <;> simp
    · simp [List.mem_cons.2 (Or.inr (List.mem_cons.2 (Or.inr h1)))]

theorem foldl_maxBy_le {α β : Type} [LinearOrder β] (f : α → β) (a : α) (l : List α) :
    ∀ x ∈ a :: l, f x ≤ f (l.foldl (fun best q => if f best < f q then q else best) a) := by
  induction l generalizing a with
  | nil => intro x hx; rcases List.mem_cons.1 hx with rfl | h <;> simp_all
  | cons c cs ih =>
    intro x hx
    simp only [List.foldl_cons]
    have hstep : f a ≤ f (if f a < f c then c else a) ∧ f c ≤ f (if f a < f c then c else a) := by
      split
      · exact ⟨le_of_lt (by assumption), le_refl _⟩
      · exact ⟨le_refl _, le_of_not_lt (by assumption)⟩
    have hhead := ih (if f a < f c then c else a) _ (List.mem_cons_self _ _)
    rcases List.mem_cons.1 hx with rfl | hx1
    · exact le_trans hstep.1 hhead
    · rcases List.mem_cons.1 hx1 with rfl | hx2
      · exact le_trans hstep.2 hhead
      · exact ih (if f a < f c then c else a) _ (List.mem_cons.2 (Or.inr hx2))

theorem foldl_minBy_mem {α β : Type} [LinearOrder β] (f : α → β) (a : α) (l : List α) :
    l.foldl (fun best q => if f q < f best then q else best) a ∈ a :: l := by
  induction l generalizing a with
  | nil => simp
  | cons c cs ih =>
    simp only [List.foldl_cons]
    have h := ih (if f c < f a then c else a)
    rcases List.mem_cons.1 h with h1 | h1
    · rw [h1]; split <;> simp
    · simp [List.mem_cons.2 (Or.inr (List.mem_cons.2 (Or.inr h1)))]

theorem foldl_minBy_le {α β : Type} [LinearOrder β] (f : α → β) (a : α) (l : List α) :
    ∀ x ∈ a :: l, f (l.foldl (fun best q => if f q < f best then q else best) a) ≤ f x := by
  induction l generalizing a with
  | nil => intro x hx; rcases List.mem_cons.1 hx with rfl | h <;> simp_all
  | cons c cs ih =>
    intro x hx
    simp only [List.foldl_cons]
    have hstep : f (if f c < f a then c else a) ≤ f a ∧ f (if f c < f a then c else a) ≤ f c := by
      split
      · exact ⟨le_of_lt (by assumption), le_refl _⟩
      · exact ⟨le_refl _, le_of_not_lt (by assumption)⟩
    have hhead := ih (if f c < f a then c else a) _ (List.mem_cons_self _ _)
    rcases List.mem_cons.1 hx with rfl | hx1
    · exact le_trans hhead hstep.1
    · rcases List.mem_cons.1 hx1 with rfl | hx2
      · exact le_trans hhead hstep.2
      · exact ih (if f c < f a then c else a) _ (List.mem_cons.2 (Or.inr hx2))

theorem maxContrastSwatch_mem (palette : List Color) (reference : Color)
    (h : palette ≠ []) : maxContrastSwatch palette reference ∈ palette := by
  match palette with
  | [] => exact absurd rfl h
  | c :: cs => exact foldl_maxBy_mem (fun s => contrastRatio s reference) c cs

theorem maxContrastSwatch_le (palette : List Color) (reference : Color) :
    ∀ x ∈ palette, contrastRatio x reference ≤
      contrastRatio (maxContrastSwatch palette reference) reference := by
  match palette with
  | [] => intro x hx; exact absurd hx (List.not_mem_nil x)
  | c :: cs => exact foldl_maxBy_le (fun s => contrastRatio s reference) c cs

theorem contrastSwatch_mem (palette : List Color) (reference : Color) (m : ℚ)
    (h : palette ≠ []) : contrastSwatch palette reference m ∈ palette := by
  unfold contrastSwatch
  cases hf : palette.find? (fun s => decide (m ≤ contrastRatio s reference)) with
  | none => exact maxContrastSwatch_mem palette reference h
  | some s => exact List.mem_of_find?_eq_some hf

theorem contrastSwatch_achieves_or (palette : List Color) (reference : Color) (m : ℚ) :
    m ≤ contrastRatio (contrastSwatch palette reference m) reference ∨
      ∀ s ∈ palette, contrastRatio s reference < m := by
  unfold contrastSwatch
  cases hf : palette.find? (fun s => decide (m ≤ contrastRatio s reference)) with
  | none =>
    right
    intro s hs
    by_contra hlt
    push_neg at hlt
    have : palette.find? (fun s => decide (m ≤ contrastRatio s reference)) ≠ none := by
      rw [Ne, List.find?_eq_none]
      push_neg
      exact ⟨s, hs, by simpa using hlt⟩
    exact this hf
  | some s =>
    left
    have := List.find?_some hf
    simpa using this

theorem find?_mono_of_stronger {α : Type} {p q : α → Bool}
    (hpq : ∀ a, q a = true → p a = true) {l : List α} {x : α}
    (h : l.find? p = some x) (hq : q x = true) : l.find? q = some x := by
  induction l with
  | nil => simp at h
  | cons c cs ih =>
    by_cases hc : p c
    · rw [List.find?_cons_of_pos _ hc] at h
      injection h with h
      subst h
      rw [List.find?_cons_of_pos _ hq]
    · have hqc : ¬(q c = true) := fun hh => hc (hpq c hh)
      rw [List.find?_cons_of_neg _ hc] at h
      rw [List.find?_cons_of_neg _ (by simpa using hqc)]
      exact ih h

theorem contrastSwatch_mono (palette : List Color) (reference : Color) {m m2 : ℚ}
    (h : m ≤ m2) :
    contrastRatio (contrastSwatch palette reference m) reference ≤
      contrastRatio (contrastSwatch palette reference m2) reference := by
  unfold contrastSwatch
  cases h2 : palette.find? (fun s => decide (m2 ≤ contrastRatio s reference)) with
  | some y =>
    cases h1 : palette.find? (fun s => decide (m ≤ contrastRatio s reference)) with
    | some x =>
      by_cases hx2 : m2 ≤ contrastRatio x reference
      · have := find?_mono_of_stronger
          (p := fun s => decide (m ≤ contrastRatio s reference))
          (q := fun s => decide (m2 ≤ contrastRatio s reference))
          (fun a ha => by simp at ha ⊢; exact le_trans h ha) h1 (by simpa using hx2)
        rw [this] at h2
        injection h2 with h2
        rw [h2]
      · push_neg at hx2
        have hy := List.find?_some h2
        simp at hy
        exact le_of_lt (lt_of_lt_of_le hx2 hy)
    | none =>
      exfalso
      have hy := List.find?_some h2
      have hym := List.mem_of_find?_eq_some h2
      simp at hy
      have : palette.find? (fun s => decide (m ≤ contrastRatio s reference)) ≠ none := by
        rw [Ne, List.find?_eq_none]
        push_neg
        exact ⟨y, hym, by simp; exact le_trans h hy⟩
      exact this h1
  | none =>
    cases h1 : palette.find? (fun s => decide (m ≤ contrastRatio s reference)) with
    | some x => exact maxContrastSwatch_le palette reference x (List.mem_of_find?_eq_some h1)
    | none => exact le_refl _

theorem blackOrWhiteByContrast_eq_or (reference : Color) (m : ℚ) (d : Bool) :
    blackOrWhiteByContrast reference m d = black ∨
      blackOrWhiteByContrast reference m d = white := by
  unfold blackOrWhiteByContrast
  by_cases h1 : m ≤ contrastRatio black reference ∧ m ≤ contrastRatio white reference
  · rw [if_pos h1]
    cases d
    · exact Or.inr rfl
    · exact Or.inl rfl
  · rw [if_neg h1]
    by_cases h2 : m ≤ contrastRatio black reference
    · rw [if_pos h2]; exact Or.inl rfl
    · rw [if_neg h2]
      by_cases h3 : m ≤ contrastRatio white reference
      · rw [if_pos h3]; exact Or.inr rfl
      · rw [if_neg h3]
        by_cases h4 : contrastRatio black reference < contrastRatio white reference
        · rw [if_pos h4]; exact Or.inr rfl
        · rw [if_neg h4]; exact Or.inl rfl

theorem blackOrWhiteByContrast_achieves_or (reference : Color) (m : ℚ) (d : Bool) :
    m ≤ contrastRatio (blackOrWhiteByContrast reference m d) reference ∨
      (contrastRatio black reference < m ∧ contrastRatio white reference < m) := by
  unfold blackOrWhiteByContrast
  by_cases h1 : m ≤ contrastRatio black reference ∧ m ≤ contrastRatio white reference
  · left
    rw [if_pos h1]
    cases d
    · exact h1.2
    · exact h1.1
  · rw [if_neg h1]
    by_cases h2 : m ≤ contrastRatio black reference
    · left; rwa [if_pos h2]
    · rw [if_neg h2]
      by_cases h3 : m ≤ contrastRatio white reference
      · left; rwa [if_pos h3]
      · push_neg at h2 h3
        exact Or.inr ⟨h2, h3⟩

theorem blackOrWhiteByContrast_mono (reference : Color) {m m2 : ℚ} (d : Bool)
    (h : m ≤ m2) :
    contrastRatio (blackOrWhiteByContrast reference m d) reference ≤
      contrastRatio (blackOrWhiteByContrast reference m2 d) reference := by
  have hlow : contrastRatio (blackOrWhiteByContrast reference m d) reference =
        contrastRatio black reference ∨
      contrastRatio (blackOrWhiteByContrast reference m d) reference =
        contrastRatio white reference := by
    rcases blackOrWhiteByContrast_eq_or reference m d with hh | hh <;> rw [hh]
    · exact Or.inl rfl
    · exact Or.inr rfl
  by_cases h1 : m2 ≤ contrastRatio black reference ∧ m2 ≤ contrastRatio white reference
  · have h0 : m ≤ contrastRatio black reference ∧ m ≤ contrastRatio white reference :=
      ⟨le_trans h h1.1, le_trans h h1.2⟩
    have heq : blackOrWhiteByContrast reference m d = blackOrWhiteByContrast reference m2 d := by
      unfold blackOrWhiteByContrast
      rw [if_pos h0, if_pos h1]
    rw [heq]
  · by_cases h2 : m2 ≤ contrastRatio black reference
    · have hcwlt : contrastRatio white reference < m2 := by
        by_contra hc
        push_neg at hc
        exact h1 ⟨h2, hc⟩
      have hr2 : blackOrWhiteByContrast reference m2 d = black := by
        unfold blackOrWhiteByContrast
        rw [if_neg h1, if_pos h2]
      rw [hr2]
      rcases hlow with hh | hh
      · exact le_of_eq hh
      · exact le_trans (le_of_eq hh) (le_of_lt (lt_of_lt_of_le hcwlt h2))
    · by_cases h3 : m2 ≤ contrastRatio white reference
      · have hr2 : blackOrWhiteByContrast reference m2 d = white := by
          unfold blackOrWhiteByContrast
          rw [if_neg h1, if_neg h2, if_pos h3]
        rw [hr2]
        push_neg at h2
        rcases hlow with hh | hh
        · exact le_trans (le_of_eq hh) (le_of_lt (lt_of_lt_of_le h2 h3))
        · exact le_of_eq hh
      · have hr2 : contrastRatio (blackOrWhiteByContrast reference m2 d) reference =
            max (contrastRatio black reference) (contrastRatio white reference) := by
          unfold blackOrWhiteByContrast
          rw [if_neg h1, if_neg h2, if_neg h3]
          by_cases h4 : contrastRatio black reference < contrastRatio white reference
          · rw [if_pos h4, max_eq_right (le_of_lt h4)]
          · rw [if_neg h4, max_eq_left (le_of_not_lt h4)]
        rw [hr2]
        rcases hlow with hh | hh
        · exact le_trans (le_of_eq hh) (le_max_left _ _)
        · exact le_trans (le_of_eq hh) (le_max_right _ _)

theorem jsIndexStr_eq_getD (l : List String) (n : ℕ) (h : n < l.length) :
    jsIndexStr l (n : ℤ) = l.getD n "undefined" := by
  unfold jsIndexStr jsIndex
  rw [dif_pos ⟨Int.natCast_nonneg n, by simpa using h⟩]
  rw [List.getD_eq_get l "undefined" (by simpa using h)]
  simp

theorem jsIndexStr_undefined (l : List String) (i : ℤ)
    (h : i < 0 ∨ (l.length : ℤ) ≤ i) : jsIndexStr l i = "undefined" := by
  unfold jsIndexStr jsIndex
  rw [dif_neg]
  · rfl
  · rintro ⟨h0, hlt⟩
    rcases h with h | h <;> omega

theorem getD_map_str (l : List Color) (n : ℕ) (h : n < l.length) :
    (l.map Color.str).getD n "undefined" = (l.getD n black).str := by
  rw [List.getD_eq_get (l.map Color.str) "undefined" (by simpa using h),
    List.getD_eq_get l black h]
  simp

theorem findIdx_str_spec (l : List Color) (c : Color) (h : c ∈ l) :
    ∃ n : ℕ, l.findIdx? (fun s => s.str == c.str) = some n ∧ n < l.length ∧
      (l.map Color.str).getD n "undefined" = c.str := by
  induction l with
  | nil => exact absurd h (List.not_mem_nil c)
  | cons a as ih =>
    by_cases ha : a.str == c.str
    · exact ⟨0, by simp [ha], by simp, by simpa using ha⟩
    · have hc : c ∈ as := by
        rcases List.mem_cons.1 h with rfl | hh
        · simp at ha
        · exact hh
      obtain ⟨n, hfind, hlt, hget⟩ := ih hc
      refine ⟨n + 1, ?_, by simpa using Nat.succ_lt_succ hlt, by simpa using hget⟩
      rw [List.findIdx?_cons, if_neg (by simpa using ha), List.findIdx?_succ, hfind]
      rfl

theorem jsIndexStr_jsFindIndex_str (l : List Color) (c : Color) (h : c ∈ l) :
    jsIndexStr (l.map Color.str) (jsFindIndex (fun s => s.str == c.str) l) = c.str := by
  obtain ⟨n, hfind, hlt, hget⟩ := findIdx_str_spec l c h
  unfold jsFindIndex
  rw [hfind]
  rw [jsIndexStr_eq_getD (l.map Color.str) n (by simpa using hlt)]
  exact hget

/-- Inversion of `generateSemanticTokens`: a successful run determines the
resolved background and expresses every token by its defining formula. -/
theorem generateSemanticTokens_inv (s : GenSettings) (neutral accent : List Color)
    (adds : List (String × List Color)) (isDark : Bool) (t : ModeTokens)
    (h : generateSemanticTokens s neutral accent adds isDark = some t) :
    jsIndex neutral (if isDark then (neutral.length : ℤ) - 1 - 2 else 1) = some t.bgColor ∧
    t = {
      bg := jsIndexStr (neutral.map Color.str)
        (if isDark then (neutral.length : ℤ) - 1 - 2 else 1)
      bgSubtle := jsIndexStr (neutral.map Color.str)
        (if isDark then (neutral.length : ℤ) - 1 - 1 else 0)
      bgElevated := jsIndexStr (neutral.map Color.str)
        (if isDark then (neutral.length : ℤ) - 1 - 4 else 2)
      bgSurface := jsIndexStr (neutral.map Color.str)
        (if isDark then (neutral.length : ℤ) - 1 - 3 else 1)
      bgColor := t.bgColor
      fg := getForegroundColor s t.bgColor
      fgMuted := getContrastColor s neutral t.bgColor
      border := jsIndexStr (neutral.map Color.str)
        (jsFindIndex (fun c => c.str == (getContrastColor s neutral t.bgColor).str) neutral)
      borderSubtle := jsIndexStr (neutral.map Color.str)
        (max 0 (jsFindIndex (fun c => c.str == (getContrastColor s neutral t.bgColor).str) neutral -
          (if isDark then 2 else -2)))
      accent := (getAccentColorWithPreferredText s accent t.bgColor).1
      accentHover := jsIndexStr (accent.map Color.str)
        (max 0 (jsFindIndex
            (fun c => c.str == (getAccentColorWithPreferredText s accent t.bgColor).1.str) accent -
          (if isDark then -2 else 2)))
      accentActive := jsIndexStr (accent.map Color.str)
        (min ((neutral.length : ℤ) - 1)
          (jsFindIndex
              (fun c => c.str == (getAccentColorWithPreferredText s accent t.bgColor).1.str) accent +
            (if isDark then -2 else 2)))
      accentFg := if (getAccentColorWithPreferredText s accent t.bgColor).2
        then (if jsTruthy s.preferWhiteText then white else black)
        else getForegroundColor s (getAccentColorWithPreferredText s accent t.bgColor).1
      focusRing := getContrastColor s accent t.bgColor
      additional := adds.map (fun kv =>
        (kv.1, getContrastColor s kv.2 t.bgColor,
          getForegroundColor s (getContrastColor s kv.2 t.bgColor)))
    } := by
  simp only [generateSemanticTokens] at h
  cases hbg : jsIndex neutral (if isDark then (neutral.length : ℤ) - 1 - 2 else 1) with
  | none => rw [hbg] at h; exact absurd h (by simp)
  | some bgColor =>
    rw [hbg] at h
    injection h with h
    subst h
    exact ⟨rfl, rfl⟩

/-! Computation lemmas for the three tiers of
`getAccentColorWithPreferredText`, keyed on the outcome of the two filters. -/

theorem accent_eq_of_perfect_cons (s : GenSettings) (palette : List Color)
    (background : Color) (p : SwatchInfo) (ps : List SwatchInfo)
    (hps : (palette.enum.map (fun q => (⟨q.1, q.2, contrastRatio q.2 background,
          contrastRatio q.2 (if jsTruthy s.preferWhiteText then white else black)⟩ :
        SwatchInfo))).filter
        (fun i => decide (3 ≤ i.bgContrast) && decide (requiredRatio s ≤ i.fgContrast)) =
      p :: ps) :
    getAccentColorWithPreferredText s palette background =
      ((ps.foldl (fun best q => if best.bgContrast < q.bgContrast then q else best) p).swatch,
        true) := by
  simp only [getAccentColorWithPreferredText, hps]

theorem accent_eq_of_visible_cons (s : GenSettings) (palette : List Color)
    (background : Color) (v : SwatchInfo) (vs : List SwatchInfo)
    (hps : (palette.enum.map (fun q => (⟨q.1, q.2, contrastRatio q.2 background,
          contrastRatio q.2 (if jsTruthy s.preferWhiteText then white else black)⟩ :
        SwatchInfo))).filter
        (fun i => decide (3 ≤ i.bgContrast) && decide (requiredRatio s ≤ i.fgContrast)) = [])
    (hvs : (palette.enum.map (fun q => (⟨q.1, q.2, contrastRatio q.2 background,
          contrastRatio q.2 (if jsTruthy s.preferWhiteText then white else black)⟩ :
        SwatchInfo))).filter (fun i => decide (3 ≤ i.bgContrast)) = v :: vs) :
    getAccentColorWithPreferredText s palette background =
      ((if jsTruthy s.preferWhiteText then
          vs.foldl (fun best q => if best.index < q.index then q else best) v
        else
          vs.foldl (fun best q => if q.index < best.index then q else best) v).swatch,
       decide (requiredRatio s ≤
        (if jsTruthy s.preferWhiteText then
          vs.foldl (fun best q => if best.index < q.index then q else best) v
        else
          vs.foldl (fun best q => if q.index < best.index then q else best) v).fgContrast)) := by
  simp only [getAccentColorWithPreferredText, hps, hvs]

theorem accent_eq_of_both_nil (s : GenSettings) (palette : List Color)
    (background : Color)
    (hps : (palette.enum.map (fun q => (⟨q.1, q.2, contrastRatio q.2 background,
          contrastRatio q.2 (if jsTruthy s.preferWhiteText then white else black)⟩ :
        SwatchInfo))).filter
        (fun i => decide (3 ≤ i.bgContrast) && decide (requiredRatio s ≤ i.fgContrast)) = [])
    (hvs : (palette.enum.map (fun q => (⟨q.1, q.2, contrastRatio q.2 background,
          contrastRatio q.2 (if jsTruthy s.preferWhiteText then white else black)⟩ :
        SwatchInfo))).filter (fun i => decide (3 ≤ i.bgContrast)) = []) :
    getAccentColorWithPreferredText s palette background =
      (contrastSwatch palette background (requiredRatio s), false) := by
  simp only [getAccentColorWithPreferredText, hps, hvs]

/-! Tier-level characterizations of the accent cascade. -/

theorem accent_tier1 (s : GenSettings) (palette : List Color) (background : Color)
    (h : ∃ p ∈ palette.enum, 3 ≤ contrastRatio p.2 background ∧
      requiredRatio s ≤ contrastRatio p.2 (if jsTruthy s.preferWhiteText then white else black)) :
    (getAccentColorWithPreferredText s palette background).2 = true ∧
    ∃ p ∈ palette.enum,
      (3 ≤ contrastRatio p.2 background ∧
        requiredRatio s ≤ contrastRatio p.2 (if jsTruthy s.preferWhiteText then white else black)) ∧
      (getAccentColorWithPreferredText s palette background).1 = p.2 ∧
      ∀ q ∈ palette.enum,
        (3 ≤ contrastRatio q.2 background ∧
          requiredRatio s ≤ contrastRatio q.2 (if jsTruthy s.preferWhiteText then white else black)) →
        contrastRatio q.2 background ≤ contrastRatio p.2 background := by
  obtain ⟨p0, hp0m, hp0a, hp0b⟩ := h
  have hmemf : (⟨p0.1, p0.2, contrastRatio p0.2 background,
      contrastRatio p0.2 (if jsTruthy s.preferWhiteText then white else black)⟩ : SwatchInfo) ∈
      (palette.enum.map (fun q => (⟨q.1, q.2, contrastRatio q.2 background,
          contrastRatio q.2 (if jsTruthy s.preferWhiteText then white else black)⟩ :
        SwatchInfo))).filter
        (fun i => decide (3 ≤ i.bgContrast) && decide (requiredRatio s ≤ i.fgContrast)) := by
    refine List.mem_filter.2 ⟨List.mem_map.2 ⟨p0, hp0m, rfl⟩, ?_⟩
    simp only [Bool.and_eq_true, decide_eq_true_eq]
    exact ⟨hp0a, hp0b⟩
  cases hps : (palette.enum.map (fun q => (⟨q.1, q.2, contrastRatio q.2 background,
          contrastRatio q.2 (if jsTruthy s.preferWhiteText then white else black)⟩ :
        SwatchInfo))).filter
        (fun i => decide (3 ≤ i.bgContrast) && decide (requiredRatio s ≤ i.fgContrast)) with
  | nil => rw [hps] at hmemf; exact absurd hmemf (List.not_mem_nil _)
  | cons p ps =>
    rw [accent_eq_of_perfect_cons s palette background p ps hps]
    have hselm := foldl_maxBy_mem SwatchInfo.bgContrast p ps
    rw [← hps] at hselm
    obtain ⟨hall, hpred⟩ := List.mem_filter.1 hselm
    obtain ⟨q, hqm, hq⟩ := List.mem_map.1 hall
    simp only [Bool.and_eq_true, decide_eq_true_eq] at hpred
    rw [← hq] at hpred
    refine ⟨rfl, q, hqm, hpred, by rw [← hq], ?_⟩
    intro q2 hq2m hq2props
    have hmem2 : (⟨q2.1, q2.2, contrastRatio q2.2 background,
        contrastRatio q2.2 (if jsTruthy s.preferWhiteText then white else black)⟩ : SwatchInfo) ∈
        (palette.enum.map (fun q => (⟨q.1, q.2, contrastRatio q.2 background,
          contrastRatio q.2 (if jsTruthy s.preferWhiteText then white else black)⟩ :
        SwatchInfo))).filter
        (fun i => decide (3 ≤ i.bgContrast) && decide (requiredRatio s ≤ i.fgContrast)) := by
      refine List.mem_filter.2 ⟨List.mem_map.2 ⟨q2, hq2m, rfl⟩, ?_⟩
      simp only [Bool.and_eq_true, decide_eq_true_eq]
      exact hq2props
    rw [hps] at hmem2
    have hle := foldl_maxBy_le SwatchInfo.bgContrast p ps _ hmem2
    rw [← hq] at hle
    exact hle

theorem accent_tier2 (s : GenSettings) (palette : List Color) (background : Color)
    (h1 : ∀ p ∈ palette.enum, ¬(3 ≤ contrastRatio p.2 background ∧
      requiredRatio s ≤ contrastRatio p.2 (if jsTruthy s.preferWhiteText then white else black)))
    (h2 : ∃ p ∈ palette.enum, 3 ≤ contrastRatio p.2 background) :
    ∃ p ∈ palette.enum, 3 ≤ contrastRatio p.2 background ∧
      (getAccentColorWithPreferredText s palette background).1 = p.2 ∧
      (getAccentColorWithPreferredText s palette background).2 =
        decide (requiredRatio s ≤ contrastRatio p.2 (if jsTruthy s.preferWhiteText then white else black)) ∧
      (jsTruthy s.preferWhiteText = true →
        ∀ q ∈ palette.enum, 3 ≤ contrastRatio q.2 background → q.1 ≤ p.1) ∧
      (jsTruthy s.preferWhiteText = false →
        ∀ q ∈ palette.enum, 3 ≤ contrastRatio q.2 background → p.1 ≤ q.1) := by
  have hps : (palette.enum.map (fun q => (⟨q.1, q.2, contrastRatio q.2 background,
          contrastRatio q.2 (if jsTruthy s.preferWhiteText then white else black)⟩ :
        SwatchInfo))).filter
        (fun i => decide (3 ≤ i.bgContrast) && decide (requiredRatio s ≤ i.fgContrast)) = [] := by
    rw [List.filter_eq_nil]
    intro a ha
    obtain ⟨q, hqm, hq⟩ := List.mem_map.1 ha
    subst hq
    simp only [Bool.and_eq_true, decide_eq_true_eq, not_and]
    intro h3 h45
    exact h1 q hqm ⟨h3, h45⟩
  obtain ⟨p0, hp0m, hp0⟩ := h2
  have hmemf : (⟨p0.1, p0.2, contrastRatio p0.2 background,
      contrastRatio p0.2 (if jsTruthy s.preferWhiteText then white else black)⟩ : SwatchInfo) ∈
      (palette.enum.map (fun q => (⟨q.1, q.2, contrastRatio q.2 background,
          contrastRatio q.2 (if jsTruthy s.preferWhiteText then white else black)⟩ :
        SwatchInfo))).filter (fun i => decide (3 ≤ i.bgContrast)) := by
    refine List.mem_filter.2 ⟨List.mem_map.2 ⟨p0, hp0m, rfl⟩, ?_⟩
    simp only [decide_eq_true_eq]
    exact hp0
  cases hvs : (palette.enum.map (fun q => (⟨q.1, q.2, contrastRatio q.2 background,
          contrastRatio q.2 (if jsTruthy s.preferWhiteText then white else black)⟩ :
        SwatchInfo))).filter (fun i => decide (3 ≤ i.bgContrast)) with
  | nil => rw [hvs] at hmemf; exact absurd hmemf (List.not_mem_nil _)
  | cons v vs =>
    rw [accent_eq_of_visible_cons s palette background v vs hps hvs]
    by_cases hpw : jsTruthy s.preferWhiteText
    · rw [if_pos hpw]
      have hselm := foldl_maxBy_mem SwatchInfo.index v vs
      rw [← hvs] at hselm
      obtain ⟨hall, hpred⟩ := List.mem_filter.1 hselm
      obtain ⟨q, hqm, hq⟩ := List.mem_map.1 hall
      simp only [decide_eq_true_eq] at hpred
      rw [← hq] at hpred
      refine ⟨q, hqm, hpred, by rw [← hq], by rw [← hq], ?_, ?_⟩
      · intro _ q2 hq2m hq2p
        have hmem2 : (⟨q2.1, q2.2, contrastRatio q2.2 background,
            contrastRatio q2.2 (if jsTruthy s.preferWhiteText then white else black)⟩ : SwatchInfo) ∈
            (palette.enum.map (fun q => (⟨q.1, q.2, contrastRatio q.2 background,
          contrastRatio q.2 (if jsTruthy s.preferWhiteText then white else black)⟩ :
        SwatchInfo))).filter (fun i => decide (3 ≤ i.bgContrast)) := by
          refine List.mem_filter.2 ⟨List.mem_map.2 ⟨q2, hq2m, rfl⟩, ?_⟩
          simp only [decide_eq_true_eq]
          exact hq2p
        rw [hvs] at hmem2
        have hle := foldl_maxBy_le SwatchInfo.index v vs _ hmem2
        rw [← hq] at hle
        exact hle
      · intro hfalse
        rw [hpw] at hfalse
        exact absurd hfalse (by simp)
    · rw [if_neg hpw]
      have hselm := foldl_minBy_mem SwatchInfo.index v vs
      rw [← hvs] at hselm
      obtain ⟨hall, hpred⟩ := List.mem_filter.1 hselm
      obtain ⟨q, hqm, hq⟩ := List.mem_map.1 hall
      simp only [decide_eq_true_eq] at hpred
      rw [← hq] at hpred
      refine ⟨q, hqm, hpred, by rw [← hq], by rw [← hq], ?_, ?_⟩
      · intro htrue
        exact absurd htrue hpw
      · intro _ q2 hq2m hq2p
        have hmem2 : (⟨q2.1, q2.2, contrastRatio q2.2 background,
            contrastRatio q2.2 (if jsTruthy s.preferWhiteText then white else black)⟩ : SwatchInfo) ∈
            (palette.enum.map (fun q => (⟨q.1, q.2, contrastRatio q.2 background,
          contrastRatio q.2 (if jsTruthy s.preferWhiteText then white else black)⟩ :
        SwatchInfo))).filter (fun i => decide (3 ≤ i.bgContrast)) := by
          refine List.mem_filter.2 ⟨List.mem_map.2 ⟨q2, hq2m, rfl⟩, ?_⟩
          simp only [decide_eq_true_eq]
          exact hq2p
        rw [hvs] at hmem2
        have hle := foldl_minBy_le SwatchInfo.index v vs _ hmem2
        rw [← hq] at hle
        exact hle

theorem accent_tier3 (s : GenSettings) (palette : List Color) (background : Color)
    (h : ∀ p ∈ palette.enum, ¬(3 ≤ contrastRatio p.2 background)) :
    getAccentColorWithPreferredText s palette background =
      (contrastSwatch palette background (requiredRatio s), false) := by
  have hvs : (palette.enum.map (fun q => (⟨q.1, q.2, contrastRatio q.2 background,
          contrastRatio q.2 (if jsTruthy s.preferWhiteText then white else black)⟩ :
        SwatchInfo))).filter (fun i => decide (3 ≤ i.bgContrast)) = [] := by
    rw [List.filter_eq_nil]
    intro a ha
    obtain ⟨q, hqm, hq⟩ := List.mem_map.1 ha
    subst hq
    simp only [decide_eq_true_eq]
    exact h q hqm
  have hps : (palette.enum.map (fun q => (⟨q.1, q.2, contrastRatio q.2 background,
          contrastRatio q.2 (if jsTruthy s.preferWhiteText then white else black)⟩ :
        SwatchInfo))).filter
        (fun i => decide (3 ≤ i.bgContrast) && decide (requiredRatio s ≤ i.fgContrast)) = [] := by
    rw [List.filter_eq_nil]
    intro a ha
    obtain ⟨q, hqm, hq⟩ := List.mem_map.1 ha
    subst hq
    simp only [Bool.and_eq_true, decide_eq_true_eq, not_and]
    intro h3 _
    exact h q hqm h3
  exact accent_eq_of_both_nil s palette background hps hvs

theorem accent_flag_fgContrast (s : GenSettings) (palette : List Color) (background : Color)
    (h : (getAccentColorWithPreferredText s palette background).2 = true) :
    requiredRatio s ≤ contrastRatio
      (getAccentColorWithPreferredText s palette background).1
      (if jsTruthy s.preferWhiteText then white else black) := by
  cases hps : (palette.enum.map (fun q => (⟨q.1, q.2, contrastRatio q.2 background,
          contrastRatio q.2 (if jsTruthy s.preferWhiteText then white else black)⟩ :
        SwatchInfo))).filter
        (fun i => decide (3 ≤ i.bgContrast) && decide (requiredRatio s ≤ i.fgContrast)) with
  | cons p ps =>
    rw [accent_eq_of_perfect_cons s palette background p ps hps]
    have hselm := foldl_maxBy_mem SwatchInfo.bgContrast p ps
    rw [← hps] at hselm
    obtain ⟨hall, hpred⟩ := List.mem_filter.1 hselm
    obtain ⟨q, hqm, hq⟩ := List.mem_map.1 hall
    simp only [Bool.and_eq_true, decide_eq_true_eq] at hpred
    rw [← hq] at hpred ⊢
    exact hpred.2
  | nil =>
    cases hvs : (palette.enum.map (fun q => (⟨q.1, q.2, contrastRatio q.2 background,
          contrastRatio q.2 (if jsTruthy s.preferWhiteText then white else black)⟩ :
        SwatchInfo))).filter (fun i => decide (3 ≤ i.bgContrast)) with
    | cons v vs =>
      rw [accent_eq_of_visible_cons s palette background v vs hps hvs] at h ⊢
      by_cases hpw : jsTruthy s.preferWhiteText
      · rw [if_pos hpw] at h ⊢
        have hselm := foldl_maxBy_mem SwatchInfo.index v vs
        rw [← hvs] at hselm
        obtain ⟨hall, _⟩ := List.mem_filter.1 hselm
        obtain ⟨q, hqm, hq⟩ := List.mem_map.1 hall
        simp only [decide_eq_true_eq] at h
        rw [← hq] at h ⊢
        exact h
      · rw [if_neg hpw] at h ⊢
        have hselm := foldl_minBy_mem SwatchInfo.index v vs
        rw [← hvs] at hselm
        obtain ⟨hall, _⟩ := List.mem_filter.1 hselm
        obtain ⟨q, hqm, hq⟩ := List.mem_map.1 hall
        simp only [decide_eq_true_eq] at h
        rw [← hq] at h ⊢
        exact h
    | nil =>
      rw [accent_eq_of_both_nil s palette background hps hvs] at h
      exact absurd h (by simp)

/-! Shared consequences of a successful token generation. -/

theorem neutral_ne_nil_of_some (s : GenSettings) (neutral accent : List Color)
    (adds : List (String × List Color)) (isDark : Bool) (t : ModeTokens)
    (h : generateSemanticTokens s neutral accent adds isDark = some t) :
    neutral ≠ [] := by
  obtain ⟨hbg, -⟩ := generateSemanticTokens_inv s neutral accent adds isDark t h
  intro hnil
  subst hnil
  unfold jsIndex at hbg
  rw [dif_neg] at hbg
  · exact absurd hbg (by simp)
  · rintro ⟨h0, hlt⟩
    simp at hlt

theorem jsIndexStr_natCast (l : List Color) (n : ℕ) (h : n < l.length) :
    jsIndexStr (l.map Color.str) (n : ℤ) = (l.getD n black).str := by
  rw [jsIndexStr_eq_getD _ n (by simpa using h), getD_map_str l n h]

theorem token_fields_fixed (s : GenSettings) (neutral accent : List Color)
    (adds : List (String × List Color)) (isDark : Bool) (t : ModeTokens)
    (h : generateSemanticTokens s neutral accent adds isDark = some t) :
    t.fgMuted = contrastSwatch neutral t.bgColor (requiredRatio s) ∧
    t.focusRing = contrastSwatch accent t.bgColor (requiredRatio s) ∧
    t.border = (contrastSwatch neutral t.bgColor (requiredRatio s)).str ∧
    t.fg = blackOrWhiteByContrast t.bgColor (requiredRatio s) (!(jsTruthy s.preferWhiteText)) ∧
    t.accent = (getAccentColorWithPreferredText s accent t.bgColor).1 ∧
    t.accentFg = (if (getAccentColorWithPreferredText s accent t.bgColor).2
      then (if jsTruthy s.preferWhiteText then white else black)
      else getForegroundColor s (getAccentColorWithPreferredText s accent t.bgColor).1) ∧
    t.additional = adds.map (fun kv =>
      (kv.1, getContrastColor s kv.2 t.bgColor,
        getForegroundColor s (getContrastColor s kv.2 t.bgColor))) := by
  have hne := neutral_ne_nil_of_some s neutral accent adds isDark t h
  obtain ⟨hbg, ht⟩ := generateSemanticTokens_inv s neutral accent adds isDark t h
  refine ⟨?_, ?_, ?_, ?_, ?_, ?_, ?_⟩
  · rw [ht]; rfl
  · rw [ht]; rfl
  · rw [ht]
    show jsIndexStr (neutral.map Color.str)
        (jsFindIndex (fun c => c.str == (getContrastColor s neutral t.bgColor).str) neutral) =
      (contrastSwatch neutral t.bgColor (requiredRatio s)).str
    exact jsIndexStr_jsFindIndex_str neutral (getContrastColor s neutral t.bgColor)
      (contrastSwatch_mem neutral t.bgColor (requiredRatio s) hne)
  · rw [ht]; rfl
  · rw [ht]
  · rw [ht]
  · rw [ht]

/-- C9: for every configuration and both modes, the emitted color-border
value is identical to the emitted color-fg-muted value: both are produced by
the same call pattern — the best-contrast swatch of the neutral palette
against the resolved background at the text requiredRatio — rendered to the
same color string. -/
theorem c9_border_identical_to_fgMuted (s : GenSettings) (neutral accent : List Color)
    (adds : List (String × List Color)) (isDark : Bool) (t : ModeTokens)
    (h : generateSemanticTokens s neutral accent adds isDark = some t) :
    t.fgMuted = contrastSwatch neutral t.bgColor (requiredRatio s) ∧
    t.border = t.fgMuted.str := by
  obtain ⟨h1, -, h3, -⟩ := token_fields_fixed s neutral accent adds isDark t h
  exact ⟨h1, by rw [h3, h1]⟩

/-- C9 witness: a concrete run in light mode on the example palettes. -/
theorem c9_witness :
    generateSemanticTokens settingsAA exNeutral exAccent [] false ≠ none ∧
    ((generateSemanticTokens settingsAA exNeutral exAccent [] false).getD junkTokens).fgMuted =
      contrastSwatch exNeutral
        ((generateSemanticTokens settingsAA exNeutral exAccent [] false).getD junkTokens).bgColor
        (requiredRatio settingsAA) ∧
    ((generateSemanticTokens settingsAA exNeutral exAccent [] false).getD junkTokens).border =
      ((generateSemanticTokens settingsAA exNeutral exAccent [] false).getD junkTokens).fgMuted.str := by
  have h : generateSemanticTokens settingsAA exNeutral exAccent [] false =
      some ((generateSemanticTokens settingsAA exNeutral exAccent [] false).getD junkTokens) := by
    with_unfolding_all decide
  have hc := c9_border_identical_to_fgMuted settingsAA exNeutral exAccent [] false
    ((generateSemanticTokens settingsAA exNeutral exAccent [] false).getD junkTokens) h
  exact ⟨by rw [h]; exact (by simp), hc.1, hc.2⟩

/-- C3 counterexample: on a concrete palette, the emitted color-border is
NOT the best-contrast swatch of the neutral palette against the background
at ratio 3.0 (the code selects at the text ratio 4.5): the 3.0 selection is
swatch m2 while the emitted border is m3. -/
theorem c3_counterexample :
    (generateSemanticTokens settingsAA exNeutralC3 exAccent [] false).map ModeTokens.border =
      some "m3" ∧
    (contrastSwatch exNeutralC3 ⟨"m1", 9/10⟩ 3).str = "m2" ∧
    (generateSemanticTokens settingsAA exNeutralC3 exAccent [] false).map ModeTokens.bgColor =
      some ⟨"m1", 9/10⟩ := by
  refine ⟨?_, ?_, ?_⟩ <;> with_unfolding_all decide

/-- C3 (amended): color-border and color-focus-ring are selected by the
best-contrast-swatch primitive at the TEXT requiredRatio (4.5 for AA, 7.0
for AAA) — the same call as color-fg-muted — not at the non-text minimum
3.0, and the selections therefore depend on contrastLevel. -/
theorem c3_border_focus_at_text_ratio (s : GenSettings) (neutral accent : List Color)
    (adds : List (String × List Color)) (isDark : Bool) (t : ModeTokens)
    (h : generateSemanticTokens s neutral accent adds isDark = some t) :
    t.border = (contrastSwatch neutral t.bgColor (requiredRatio s)).str ∧
    t.focusRing = contrastSwatch accent t.bgColor (requiredRatio s) := by
  obtain ⟨-, h2, h3, -⟩ := token_fields_fixed s neutral accent adds isDark t h
  exact ⟨h3, h2⟩

/-- C3 witness: the amended selection equations hold on a concrete run. -/
theorem c3_witness :
    generateSemanticTokens settingsAA exNeutralC3 exAccent [] false ≠ none ∧
    ((generateSemanticTokens settingsAA exNeutralC3 exAccent [] false).getD junkTokens).border =
      (contrastSwatch exNeutralC3
        ((generateSemanticTokens settingsAA exNeutralC3 exAccent [] false).getD junkTokens).bgColor
        (requiredRatio settingsAA)).str := by
  have h : generateSemanticTokens settingsAA exNeutralC3 exAccent [] false =
      some ((generateSemanticTokens settingsAA exNeutralC3 exAccent [] false).getD junkTokens) := by
    with_unfolding_all decide
  have hc := c3_border_focus_at_text_ratio settingsAA exNeutralC3 exAccent [] false
    ((generateSemanticTokens settingsAA exNeutralC3 exAccent [] false).getD junkTokens) h
  exact ⟨by rw [h]; exact (by simp), hc.1⟩

/-- C4: in each mode, with accentHoverIdx the index in the accent palette of
the first swatch whose rendered string equals the chosen accent color
string, color-accent-hover is the accent swatch at index
max(0, accentHoverIdx - (isDark ? -2 : 2)) and color-accent-active the
swatch at index min(lastIdx, accentHoverIdx + (isDark ? -2 : 2)): the two
offsets are exactly mirrored. -/
theorem c4_hover_active_formula (s : GenSettings) (neutral accent : List Color)
    (adds : List (String × List Color)) (isDark : Bool) (t : ModeTokens)
    (h : generateSemanticTokens s neutral accent adds isDark = some t) :
    t.accentHover = jsIndexStr (accent.map Color.str)
      (max 0 (jsFindIndex (fun c => c.str == t.accent.str) accent -
        (if isDark then -2 else 2))) ∧
    t.accentActive = jsIndexStr (accent.map Color.str)
      (min ((neutral.length : ℤ) - 1)
        (jsFindIndex (fun c => c.str == t.accent.str) accent +
          (if isDark then -2 else 2))) := by
  obtain ⟨hbg, ht⟩ := generateSemanticTokens_inv s neutral accent adds isDark t h
  constructor
  · rw [ht]
  · rw [ht]

/-- C4 witness: the hover/active formulas evaluated on a concrete run. -/
theorem c4_witness :
    generateSemanticTokens settingsAA exNeutral exAccent [] false ≠ none ∧
    ((generateSemanticTokens settingsAA exNeutral exAccent [] false).getD junkTokens).accentHover =
      jsIndexStr (exAccent.map Color.str)
        (max 0 (jsFindIndex
            (fun c => c.str ==
              ((generateSemanticTokens settingsAA exNeutral exAccent [] false).getD
                junkTokens).accent.str) exAccent - 2)) := by
  have h : generateSemanticTokens settingsAA exNeutral exAccent [] false =
      some ((generateSemanticTokens settingsAA exNeutral exAccent [] false).getD junkTokens) := by
    with_unfolding_all decide
  have hc := c4_hover_active_formula settingsAA exNeutral exAccent [] false
    ((generateSemanticTokens settingsAA exNeutral exAccent [] false).getD junkTokens) h
  refine ⟨by rw [h]; exact (by simp), ?_⟩
  have := hc.1
  simpa using this

theorem background_fields_getD (s : GenSettings) (neutral accent : List Color)
    (adds : List (String × List Color)) (isDark : Bool) (t : ModeTokens)
    (h : generateSemanticTokens s neutral accent adds isDark = some t)
    (hlen : 5 ≤ neutral.length) :
    t.bg = (neutral.getD (if isDark then neutral.length - 3 else 1) black).str ∧
    t.bgSubtle = (neutral.getD (if isDark then neutral.length - 2 else 0) black).str ∧
    t.bgElevated = (neutral.getD (if isDark then neutral.length - 5 else 2) black).str ∧
    t.bgSurface = (neutral.getD (if isDark then neutral.length - 4 else 1) black).str := by
  obtain ⟨hbg, ht⟩ := generateSemanticTokens_inv s neutral accent adds isDark t h
  cases isDark with
  | false =>
    refine ⟨?_, ?_, ?_, ?_⟩ <;> rw [ht] <;> simp only [if_neg (by simp : ¬(false = true))]
    · exact jsIndexStr_natCast neutral 1 (by omega)
    · exact jsIndexStr_natCast neutral 0 (by omega)
    · exact jsIndexStr_natCast neutral 2 (by omega)
    · exact jsIndexStr_natCast neutral 1 (by omega)
  | true =>
    refine ⟨?_, ?_, ?_, ?_⟩ <;> rw [ht] <;> simp only [if_pos (rfl : (true = true))]
    · rw [show ((neutral.length : ℤ) - 1 - 2) = ((neutral.length - 3 : ℕ) : ℤ) by omega]
      exact jsIndexStr_natCast neutral (neutral.length - 3) (by omega)
    · rw [show ((neutral.length : ℤ) - 1 - 1) = ((neutral.length - 2 : ℕ) : ℤ) by omega]
      exact jsIndexStr_natCast neutral (neutral.length - 2) (by omega)
    · rw [show ((neutral.length : ℤ) - 1 - 4) = ((neutral.length - 5 : ℕ) : ℤ) by omega]
      exact jsIndexStr_natCast neutral (neutral.length - 5) (by omega)
    · rw [show ((neutral.length : ℤ) - 1 - 3) = ((neutral.length - 4 : ℕ) : ℤ) by omega]
      exact jsIndexStr_natCast neutral (neutral.length - 4) (by omega)

/-- C5: the four background tokens are taken at fixed indices of the
neutral palette: bg at 1 (light) / lastIdx-2 (dark), bg-subtle at 0 /
lastIdx-1, bg-elevated at 2 / lastIdx-4, bg-surface at 1 / lastIdx-3
(with lastIdx = length - 1, written below in subtracted form). -/
theorem c5_background_indices (s : GenSettings) (neutral accent : List Color)
    (adds : List (String × List Color)) (isDark : Bool) (t : ModeTokens)
    (h : generateSemanticTokens s neutral accent adds isDark = some t)
    (hlen : 5 ≤ neutral.length) :
    t.bg = (neutral.getD (if isDark then neutral.length - 3 else 1) black).str ∧
    t.bgSubtle = (neutral.getD (if isDark then neutral.length - 2 else 0) black).str ∧
    t.bgElevated = (neutral.getD (if isDark then neutral.length - 5 else 2) black).str ∧
    t.bgSurface = (neutral.getD (if isDark then neutral.length - 4 else 1) black).str :=
  background_fields_getD s neutral accent adds isDark t h hlen

/-- C5 witness: the background indices on a concrete 12-swatch palette in
dark mode. -/
theorem c5_witness :
    (generateSemanticTokens settingsAA exNeutral12 exAccent12 [] true ≠ none ∧
      5 ≤ exNeutral12.length) ∧
    ((generateSemanticTokens settingsAA exNeutral12 exAccent12 [] true).getD junkTokens).bg =
      (exNeutral12.getD (exNeutral12.length - 3) black).str := by
  have h : generateSemanticTokens settingsAA exNeutral12 exAccent12 [] true =
      some ((generateSemanticTokens settingsAA exNeutral12 exAccent12 [] true).getD junkTokens) := by
    with_unfolding_all decide
  have hc := c5_background_indices settingsAA exNeutral12 exAccent12 [] true
    ((generateSemanticTokens settingsAA exNeutral12 exAccent12 [] true).getD junkTokens) h
    (by decide)
  exact ⟨⟨by rw [h]; exact (by simp), by decide⟩, hc.1⟩

/-- C1: for every configuration and each mode, every emitted text-role pair
— (color-fg, color-bg), (color-fg-muted, color-bg),
(color-accent-fg, color-accent) and (color-{extra}-fg, color-{extra}) —
meets requiredRatio whenever a candidate affording it exists; when none
does, the selector still returns a deterministic best-effort pick (each
conjunct states: the pair meets the ratio, or no candidate in the relevant
pool achieves it). -/
theorem c1_contrast_invariant (s : GenSettings) (neutral accent : List Color)
    (adds : List (String × List Color)) (isDark : Bool) (t : ModeTokens)
    (h : generateSemanticTokens s neutral accent adds isDark = some t) :
    (requiredRatio s ≤ contrastRatio t.fg t.bgColor ∨
      (contrastRatio black t.bgColor < requiredRatio s ∧
       contrastRatio white t.bgColor < requiredRatio s)) ∧
    (requiredRatio s ≤ contrastRatio t.fgMuted t.bgColor ∨
      ∀ c ∈ neutral, contrastRatio c t.bgColor < requiredRatio s) ∧
    (requiredRatio s ≤ contrastRatio t.accentFg t.accent ∨
      (contrastRatio black t.accent < requiredRatio s ∧
       contrastRatio white t.accent < requiredRatio s)) ∧
    (∀ e ∈ t.additional, requiredRatio s ≤ contrastRatio e.2.2 e.2.1 ∨
      (contrastRatio black e.2.1 < requiredRatio s ∧
       contrastRatio white e.2.1 < requiredRatio s)) := by
  obtain ⟨hmut, -, -, hfg, hacc, haccfg, hadd⟩ :=
    token_fields_fixed s neutral accent adds isDark t h
  refine ⟨?_, ?_, ?_, ?_⟩
  · rw [hfg]
    exact blackOrWhiteByContrast_achieves_or t.bgColor (requiredRatio s) _
  · rw [hmut]
    exact contrastSwatch_achieves_or neutral t.bgColor (requiredRatio s)
  · rw [haccfg, hacc]
    by_cases hflag : (getAccentColorWithPreferredText s accent t.bgColor).2 = true
    · rw [if_pos hflag]
      left
      rw [contrastRatio_comm]
      exact accent_flag_fgContrast s accent t.bgColor hflag
    · rw [if_neg hflag]
      exact blackOrWhiteByContrast_achieves_or
        (getAccentColorWithPreferredText s accent t.bgColor).1 (requiredRatio s) _
  · intro e he
    rw [hadd] at he
    obtain ⟨kv, hkvm, hkv⟩ := List.mem_map.1 he
    subst hkv
    exact blackOrWhiteByContrast_achieves_or
      (getContrastColor s kv.2 t.bgColor) (requiredRatio s) _

/-- C1 witness: the invariant instantiated on a concrete light-mode run
with an extra "warning" palette. -/
theorem c1_witness :
    generateSemanticTokens settingsAA exNeutral exAccent exAdds false ≠ none ∧
    (requiredRatio settingsAA ≤ contrastRatio
      ((generateSemanticTokens settingsAA exNeutral exAccent exAdds false).getD junkTokens).fg
      ((generateSemanticTokens settingsAA exNeutral exAccent exAdds false).getD junkTokens).bgColor ∨
      (contrastRatio black
        ((generateSemanticTokens settingsAA exNeutral exAccent exAdds false).getD junkTokens).bgColor <
        requiredRatio settingsAA ∧
       contrastRatio white
        ((generateSemanticTokens settingsAA exNeutral exAccent exAdds false).getD junkTokens).bgColor <
        requiredRatio settingsAA)) := by
  have h : generateSemanticTokens settingsAA exNeutral exAccent exAdds false =
      some ((generateSemanticTokens settingsAA exNeutral exAccent exAdds false).getD junkTokens) := by
    with_unfolding_all decide
  have hc := c1_contrast_invariant settingsAA exNeutral exAccent exAdds false
    ((generateSemanticTokens settingsAA exNeutral exAccent exAdds false).getD junkTokens) h
  exact ⟨by rw [h]; exact (by simp), hc.1⟩

/-- C2: the accent selection follows the three-tier cascade - Tier 1 picks
the highest-bgContrast swatch among those with bgContrast >= 3 and
fgContrast >= requiredRatio against the preferred foreground and marks the
preferred foreground accessible; Tier 2 otherwise picks the extreme-index
swatch among those with bgContrast >= 3 (highest index if preferWhiteText,
lowest otherwise) with the flag recording whether that pick clears the text
ratio; Tier 3 otherwise falls back to the best-contrast-swatch primitive at
requiredRatio with the flag false; and the emitted color-accent-fg is the
literal preferred foreground exactly when the flag is set, the
black-or-white-by-contrast chooser on the chosen accent otherwise. -/
theorem c2_accent_cascade (s : GenSettings) (neutral accent : List Color)
    (adds : List (String × List Color)) (isDark : Bool) (t : ModeTokens)
    (h : generateSemanticTokens s neutral accent adds isDark = some t) :
    ((∃ p ∈ accent.enum, 3 ≤ contrastRatio p.2 t.bgColor ∧
        requiredRatio s ≤ contrastRatio p.2 (if jsTruthy s.preferWhiteText then white else black)) →
      (getAccentColorWithPreferredText s accent t.bgColor).2 = true ∧
      ∃ p ∈ accent.enum,
        (3 ≤ contrastRatio p.2 t.bgColor ∧
          requiredRatio s ≤ contrastRatio p.2 (if jsTruthy s.preferWhiteText then white else black)) ∧
        t.accent = p.2 ∧
        ∀ q ∈ accent.enum,
          (3 ≤ contrastRatio q.2 t.bgColor ∧
            requiredRatio s ≤ contrastRatio q.2 (if jsTruthy s.preferWhiteText then white else black)) →
          contrastRatio q.2 t.bgColor ≤ contrastRatio p.2 t.bgColor) ∧
    ((∀ p ∈ accent.enum, ¬(3 ≤ contrastRatio p.2 t.bgColor ∧
        requiredRatio s ≤ contrastRatio p.2 (if jsTruthy s.preferWhiteText then white else black))) →
      (∃ p ∈ accent.enum, 3 ≤ contrastRatio p.2 t.bgColor) →
      ∃ p ∈ accent.enum, 3 ≤ contrastRatio p.2 t.bgColor ∧
        t.accent = p.2 ∧
        (getAccentColorWithPreferredText s accent t.bgColor).2 =
          decide (requiredRatio s ≤ contrastRatio p.2 (if jsTruthy s.preferWhiteText then white else black)) ∧
        (jsTruthy s.preferWhiteText = true →
          ∀ q ∈ accent.enum, 3 ≤ contrastRatio q.2 t.bgColor → q.1 ≤ p.1) ∧
        (jsTruthy s.preferWhiteText = false →
          ∀ q ∈ accent.enum, 3 ≤ contrastRatio q.2 t.bgColor → p.1 ≤ q.1)) ∧
    ((∀ p ∈ accent.enum, ¬(3 ≤ contrastRatio p.2 t.bgColor)) →
      t.accent = contrastSwatch accent t.bgColor (requiredRatio s) ∧
      (getAccentColorWithPreferredText s accent t.bgColor).2 = false) ∧
    (t.accentFg = if (getAccentColorWithPreferredText s accent t.bgColor).2
      then (if jsTruthy s.preferWhiteText then white else black)
      else blackOrWhiteByContrast t.accent (requiredRatio s)
        (!(jsTruthy s.preferWhiteText))) := by
  obtain ⟨-, -, -, -, hacc, haccfg, -⟩ :=
    token_fields_fixed s neutral accent adds isDark t h
  refine ⟨?_, ?_, ?_, ?_⟩
  · intro hex
    obtain ⟨hflag, p, hm, hp, heq, hmax⟩ := accent_tier1 s accent t.bgColor hex
    exact ⟨hflag, p, hm, hp, by rw [hacc, heq], hmax⟩
  · intro h1 h2
    obtain ⟨p, hm, hp, heq, hflageq, hmaxw, hminb⟩ := accent_tier2 s accent t.bgColor h1 h2
    exact ⟨p, hm, hp, by rw [hacc, heq], hflageq, hmaxw, hminb⟩
  · intro h3
    have := accent_tier3 s accent t.bgColor h3
    constructor
    · rw [hacc, this]
    · rw [this]
  · rw [haccfg, hacc]
    rfl

/-- C2 witness: on the example palettes Tier 1 is non-empty in light mode
and the cascade's Tier-1 conclusion holds there. -/
theorem c2_witness :
    (∃ p ∈ exAccent.enum, 3 ≤ contrastRatio p.2
        ((generateSemanticTokens settingsAA exNeutral exAccent [] false).getD junkTokens).bgColor ∧
      requiredRatio settingsAA ≤ contrastRatio p.2
        (if jsTruthy settingsAA.preferWhiteText then white else black)) ∧
    ((getAccentColorWithPreferredText settingsAA exAccent
        ((generateSemanticTokens settingsAA exNeutral exAccent [] false).getD junkTokens).bgColor).2 =
      true ∧
    ∃ p ∈ exAccent.enum,
      (3 ≤ contrastRatio p.2
          ((generateSemanticTokens settingsAA exNeutral exAccent [] false).getD junkTokens).bgColor ∧
        requiredRatio settingsAA ≤ contrastRatio p.2
          (if jsTruthy settingsAA.preferWhiteText then white else black)) ∧
      ((generateSemanticTokens settingsAA exNeutral exAccent [] false).getD junkTokens).accent =
        p.2 ∧
      ∀ q ∈ exAccent.enum,
        (3 ≤ contrastRatio q.2
            ((generateSemanticTokens settingsAA exNeutral exAccent [] false).getD junkTokens).bgColor ∧
          requiredRatio settingsAA ≤ contrastRatio q.2
            (if jsTruthy settingsAA.preferWhiteText then white else black)) →
        contrastRatio q.2
            ((generateSemanticTokens settingsAA exNeutral exAccent [] false).getD junkTokens).bgColor ≤
          contrastRatio p.2
            ((generateSemanticTokens settingsAA exNeutral exAccent [] false).getD junkTokens).bgColor) := by
  have h : generateSemanticTokens settingsAA exNeutral exAccent [] false =
      some ((generateSemanticTokens settingsAA exNeutral exAccent [] false).getD junkTokens) := by
    with_unfolding_all decide
  have hex : ∃ p ∈ exAccent.enum, 3 ≤ contrastRatio p.2
      ((generateSemanticTokens settingsAA exNeutral exAccent [] false).getD junkTokens).bgColor ∧
    requiredRatio settingsAA ≤ contrastRatio p.2
      (if jsTruthy settingsAA.preferWhiteText then white else black) := by
    with_unfolding_all decide
  exact ⟨hex, (c2_accent_cascade settingsAA exNeutral exAccent [] false
    ((generateSemanticTokens settingsAA exNeutral exAccent [] false).getD junkTokens) h).1 hex⟩

/-- C10: when the configuration omits preferWhiteText (the exported type
does not declare it and defaultConfig does not set it), the generator
behaves exactly as if preferWhiteText were false: the whole token
generation agrees with the explicit-false configuration, the
black-or-white chooser is biased to black, the Tier-2 accent fallback picks
the lowest-index (lightest) visible swatch, and whenever the preferred
foreground is marked accessible the emitted color-accent-fg is the literal
"#000000". -/
theorem c10_absent_preferWhiteText_behaves_false (lvl : Bool) :
    (∀ (neutral accent : List Color) (adds : List (String × List Color)) (isDark : Bool),
      generateSemanticTokens ⟨lvl, none⟩ neutral accent adds isDark =
        generateSemanticTokens ⟨lvl, some false⟩ neutral accent adds isDark) ∧
    (∀ background : Color, getForegroundColor ⟨lvl, none⟩ background =
      blackOrWhiteByContrast background (requiredRatio ⟨lvl, none⟩) true) ∧
    (∀ (accent : List Color) (background : Color),
      (∀ p ∈ accent.enum, ¬(3 ≤ contrastRatio p.2 background ∧
        requiredRatio ⟨lvl, none⟩ ≤ contrastRatio p.2 black)) →
      (∃ p ∈ accent.enum, 3 ≤ contrastRatio p.2 background) →
      ∃ p ∈ accent.enum, 3 ≤ contrastRatio p.2 background ∧
        (getAccentColorWithPreferredText ⟨lvl, none⟩ accent background).1 = p.2 ∧
        ∀ q ∈ accent.enum, 3 ≤ contrastRatio q.2 background → p.1 ≤ q.1) ∧
    (∀ (neutral accent : List Color) (adds : List (String × List Color))
        (isDark : Bool) (t : ModeTokens),
      generateSemanticTokens ⟨lvl, none⟩ neutral accent adds isDark = some t →
      (getAccentColorWithPreferredText ⟨lvl, none⟩ accent t.bgColor).2 = true →
      t.accentFg.str = "#000000") := by
  refine ⟨?_, ?_, ?_, ?_⟩
  · intro neutral accent adds isDark
    rfl
  · intro background
    rfl
  · intro accent background h1 h2
    obtain ⟨p, hm, hp, heq, -, -, hminb⟩ :=
      accent_tier2 ⟨lvl, none⟩ accent background h1 h2
    exact ⟨p, hm, hp, heq, hminb rfl⟩
  · intro neutral accent adds isDark t ht hflag
    obtain ⟨-, -, -, -, -, haccfg, -⟩ :=
      token_fields_fixed ⟨lvl, none⟩ neutral accent adds isDark t ht
    rw [haccfg, if_pos hflag]
    rfl

/-- C10 witness: with preferWhiteText absent, a Tier-2 situation picks the
lightest visible swatch on a concrete palette. -/
theorem c10_witness :
    ((∀ p ∈ exAccentT2.enum, ¬(3 ≤ contrastRatio p.2 exBg ∧
        requiredRatio ⟨false, none⟩ ≤ contrastRatio p.2 black)) ∧
      (∃ p ∈ exAccentT2.enum, 3 ≤ contrastRatio p.2 exBg)) ∧
    (∃ p ∈ exAccentT2.enum, 3 ≤ contrastRatio p.2 exBg ∧
      (getAccentColorWithPreferredText ⟨false, none⟩ exAccentT2 exBg).1 = p.2 ∧
      ∀ q ∈ exAccentT2.enum, 3 ≤ contrastRatio q.2 exBg → p.1 ≤ q.1) := by
  have h1 : ∀ p ∈ exAccentT2.enum, ¬(3 ≤ contrastRatio p.2 exBg ∧
      requiredRatio ⟨false, none⟩ ≤ contrastRatio p.2 black) := by
    with_unfolding_all decide
  have h2 : ∃ p ∈ exAccentT2.enum, 3 ≤ contrastRatio p.2 exBg := by
    with_unfolding_all decide
  exact ⟨⟨h1, h2⟩,
    (c10_absent_preferWhiteText_behaves_false false).2.2.1 exAccentT2 exBg h1 h2⟩

/-- Totality of token generation for palettes of at least 3 swatches: the
background index is always in range, so generation never throws. -/
theorem generateSemanticTokens_isSome (s : GenSettings) (neutral accent : List Color)
    (adds : List (String × List Color)) (isDark : Bool) (hn : 3 ≤ neutral.length) :
    (generateSemanticTokens s neutral accent adds isDark).isSome := by
  have hcond : 0 ≤ (if isDark then (neutral.length : ℤ) - 1 - 2 else 1) ∧
      (if isDark then (neutral.length : ℤ) - 1 - 2 else 1).toNat < neutral.length := by
    cases isDark <;> constructor <;> simp <;> omega
  simp only [generateSemanticTokens, jsIndex, dif_pos hcond]
  simp

theorem getD_str_mem (l : List Color) (n : ℕ) (h : n < l.length) :
    (l.getD n black).str ∈ l.map Color.str := by
  refine List.mem_map.2 ⟨l.getD n black, ?_, rfl⟩
  rw [List.getD_eq_get l black h]
  exact List.get_mem l _ _

/-- C6 counterexample: on 12-swatch palettes in dark mode the chosen accent
can be the lightest swatch (index 0), so the active index
min(lastIdx, 0 + (-2)) = -2 falls outside [0, lastIdx] and the emitted
color-accent-active is the string "undefined" (JavaScript renders the
undefined array access): the claimed in-range property fails. -/
theorem c6_counterexample :
    (generateSemanticTokens settingsAA exNeutral12 exAccent12 [] true).map
      ModeTokens.accentActive = some "undefined" ∧
    12 ≤ exNeutral12.length ∧ 12 ≤ exAccent12.length := by
  refine ⟨?_, by decide, by decide⟩
  with_unfolding_all decide

/-- C6 (amended): for a neutral palette of length at least 12 (and any
accent palette), generation never throws — it always yields a token set —
and the background-tier and border indices land in [0, lastIdx], so those
five tokens are real swatch strings; but the border-subtle, hover and
active indices are clamped on one side only and can fall outside the
range, in which case the affected token renders JavaScript undefined as
the string "undefined". -/
theorem c6_safe_indices (s : GenSettings) (neutral accent : List Color)
    (adds : List (String × List Color)) (isDark : Bool)
    (hn : 12 ≤ neutral.length)
    (hu : "undefined" ∉ neutral.map Color.str) :
    ∃ t, generateSemanticTokens s neutral accent adds isDark = some t ∧
      t.bg ≠ "undefined" ∧ t.bgSubtle ≠ "undefined" ∧
      t.bgElevated ≠ "undefined" ∧ t.bgSurface ≠ "undefined" ∧
      t.border ≠ "undefined" := by
  obtain ⟨t, hgen⟩ := Option.isSome_iff_exists.1
    (generateSemanticTokens_isSome s neutral accent adds isDark (by omega))
  obtain ⟨hbgf, hsubf, helevf, hsurff⟩ :=
    background_fields_getD s neutral accent adds isDark t hgen (by omega)
  obtain ⟨-, -, hbord, -⟩ := token_fields_fixed s neutral accent adds isDark t hgen
  have hne := neutral_ne_nil_of_some s neutral accent adds isDark t hgen
  refine ⟨t, hgen, ?_, ?_, ?_, ?_, ?_⟩
  · rw [hbgf]
    intro he
    exact hu (he ▸ getD_str_mem neutral _ (by cases isDark <;> simp <;> omega))
  · rw [hsubf]
    intro he
    exact hu (he ▸ getD_str_mem neutral _ (by cases isDark <;> simp <;> omega))
  · rw [helevf]
    intro he
    exact hu (he ▸ getD_str_mem neutral _ (by cases isDark <;> simp <;> omega))
  · rw [hsurff]
    intro he
    exact hu (he ▸ getD_str_mem neutral _ (by cases isDark <;> simp <;> omega))
  · rw [hbord]
    intro he
    refine hu (he ▸ List.mem_map.2
      ⟨contrastSwatch neutral t.bgColor (requiredRatio s),
        contrastSwatch_mem neutral t.bgColor (requiredRatio s) hne, rfl⟩)

/-- C6 witness: the amended safety conclusions on concrete 12-swatch
palettes in dark mode. -/
theorem c6_witness :
    (12 ≤ exNeutral12.length ∧ "undefined" ∉ exNeutral12.map Color.str) ∧
    (∃ t, generateSemanticTokens settingsAA exNeutral12 exAccent12 [] true = some t ∧
      t.bg ≠ "undefined" ∧ t.bgSubtle ≠ "undefined" ∧
      t.bgElevated ≠ "undefined" ∧ t.bgSurface ≠ "undefined" ∧
      t.border ≠ "undefined") :=
  ⟨⟨by decide, by decide⟩,
    c6_safe_indices settingsAA exNeutral12 exAccent12 [] true (by decide) (by decide)⟩

/-- C7 counterexample: with the example palettes in light mode, the AA run
selects accent a2 with measured (accent, bg) ratio 38/9 while the AAA run
selects a1 with ratio 19/6 < 38/9: switching AA→AAA strictly decreases a
measured contrast ratio of the output. -/
theorem c7_counterexample :
    (generateSemanticTokens settingsAA exNeutral exAccent [] false).map
      (fun t => contrastRatio t.accent t.bgColor) = some (38/9) ∧
    (generateSemanticTokens settingsAAA exNeutral exAccent [] false).map
      (fun t => contrastRatio t.accent t.bgColor) = some (19/6) ∧
    ((19 : ℚ)/6) < 38/9 := by
  refine ⟨?_, ?_, ?_⟩ <;> with_unfolding_all decide

/-- C7 (amended): switching contrastLevel from AA to AAA never decreases
the measured ratios of the pairs selected against the fixed background by
the black-or-white chooser and the best-contrast-swatch primitive — fg/bg,
fg-muted/bg (= border/bg), focus-ring/bg and each color-{extra}/bg — but
the accent-cascade pairings are not monotone and can decrease (see the
counterexample). -/
theorem c7_aaa_monotone_non_accent (pw : Option Bool) (neutral accent : List Color)
    (adds : List (String × List Color)) (isDark : Bool) (tAA tAAA : ModeTokens)
    (hAA : generateSemanticTokens ⟨false, pw⟩ neutral accent adds isDark = some tAA)
    (hAAA : generateSemanticTokens ⟨true, pw⟩ neutral accent adds isDark = some tAAA) :
    tAAA.bgColor = tAA.bgColor ∧
    contrastRatio tAA.fg tAA.bgColor ≤ contrastRatio tAAA.fg tAAA.bgColor ∧
    contrastRatio tAA.fgMuted tAA.bgColor ≤ contrastRatio tAAA.fgMuted tAAA.bgColor ∧
    contrastRatio tAA.focusRing tAA.bgColor ≤ contrastRatio tAAA.focusRing tAAA.bgColor ∧
    ∀ p ∈ List.zip tAA.additional tAAA.additional,
      contrastRatio p.1.2.1 tAA.bgColor ≤ contrastRatio p.2.2.1 tAAA.bgColor := by
  obtain ⟨hbgAA, -⟩ := generateSemanticTokens_inv _ neutral accent adds isDark tAA hAA
  obtain ⟨hbgAAA, -⟩ := generateSemanticTokens_inv _ neutral accent adds isDark tAAA hAAA
  have hbgeq : tAAA.bgColor = tAA.bgColor := by
    rw [hbgAA] at hbgAAA
    injection hbgAAA with hv
    exact hv.symm
  obtain ⟨hmutAA, hfocAA, -, hfgAA, -, -, haddAA⟩ :=
    token_fields_fixed _ neutral accent adds isDark tAA hAA
  obtain ⟨hmutAAA, hfocAAA, -, hfgAAA, -, -, haddAAA⟩ :=
    token_fields_fixed _ neutral accent adds isDark tAAA hAAA
  have hrr : requiredRatio ⟨false, pw⟩ ≤ requiredRatio ⟨true, pw⟩ := by
    show (9 : ℚ)/2 ≤ 7
    norm_num
  refine ⟨hbgeq, ?_, ?_, ?_, ?_⟩
  · rw [hfgAA, hfgAAA, hbgeq]
    exact blackOrWhiteByContrast_mono tAA.bgColor _ hrr
  · rw [hmutAA, hmutAAA, hbgeq]
    exact contrastSwatch_mono neutral tAA.bgColor hrr
  · rw [hfocAA, hfocAAA, hbgeq]
    exact contrastSwatch_mono accent tAA.bgColor hrr
  · intro p hp
    rw [haddAA, haddAAA, hbgeq, List.zip_map'] at hp
    obtain ⟨kv, hkvm, hkv⟩ := List.mem_map.1 hp
    subst hkv
    rw [hbgeq]
    exact contrastSwatch_mono kv.2 tAA.bgColor hrr

/-- C7 witness: the amended monotonicity applied to a concrete pair of
AA/AAA runs with an extra palette. -/
theorem c7_witness :
    (generateSemanticTokens (⟨false, none⟩ : GenSettings) exNeutral exAccent exAdds false ≠
        none ∧
      generateSemanticTokens (⟨true, none⟩ : GenSettings) exNeutral exAccent exAdds false ≠
        none) ∧
    contrastRatio
        ((generateSemanticTokens (⟨false, none⟩ : GenSettings) exNeutral exAccent exAdds
          false).getD junkTokens).fg
        ((generateSemanticTokens (⟨false, none⟩ : GenSettings) exNeutral exAccent exAdds
          false).getD junkTokens).bgColor ≤
      contrastRatio
        ((generateSemanticTokens (⟨true, none⟩ : GenSettings) exNeutral exAccent exAdds
          false).getD junkTokens).fg
        ((generateSemanticTokens (⟨true, none⟩ : GenSettings) exNeutral exAccent exAdds
          false).getD junkTokens).bgColor := by
  have hAA : generateSemanticTokens (⟨false, none⟩ : GenSettings) exNeutral exAccent exAdds false =
      some ((generateSemanticTokens (⟨false, none⟩ : GenSettings) exNeutral exAccent exAdds
        false).getD junkTokens) := by
    with_unfolding_all decide
  have hAAA : generateSemanticTokens (⟨true, none⟩ : GenSettings) exNeutral exAccent exAdds false =
      some ((generateSemanticTokens (⟨true, none⟩ : GenSettings) exNeutral exAccent exAdds
        false).getD junkTokens) := by
    with_unfolding_all decide
  have hc := c7_aaa_monotone_non_accent none exNeutral exAccent exAdds false _ _ hAA hAAA
  exact ⟨⟨by rw [hAA]; exact (by simp), by rw [hAAA]; exact (by simp)⟩, hc.2.1⟩

theorem generatePalettes_invalid (parse : String → Option Color)
    (build : Color → List Color) (entries : List (String × PaletteValue))
    (h : ∃ kv ∈ entries, parse (kv.2).base = none) :
    ∃ key base, generatePalettes parse build entries = .error (.invalidColor base key) ∧
      (∃ v, (key, v) ∈ entries ∧ v.base = base) ∧ parse base = none := by
  induction entries with
  | nil =>
    obtain ⟨kv, hkv, -⟩ := h
    exact absurd hkv (List.not_mem_nil kv)
  | cons e rest ih =>
    obtain ⟨key0, v0⟩ := e
    by_cases hp : parse v0.base = none
    · refine ⟨key0, v0.base, ?_, ⟨v0, List.mem_cons_self _ _, rfl⟩, hp⟩
      simp only [generatePalettes, hp]
    · obtain ⟨c, hc⟩ := Option.ne_none_iff_exists'.1 hp
      have hex : ∃ kv ∈ rest, parse (kv.2).base = none := by
        obtain ⟨kv, hkv, hnone⟩ := h
        rcases List.mem_cons.1 hkv with rfl | hr
        · exact absurd hnone hp
        · exact ⟨kv, hr, hnone⟩
      obtain ⟨key, base, herr, ⟨v, hv, hvb⟩, hpb⟩ := ih hex
      refine ⟨key, base, ?_, ⟨v, List.mem_cons.2 (Or.inr hv), hvb⟩, hpb⟩
      simp only [generatePalettes, hc, herr]

/-- C8: a configured base color that fails to parse makes generation fail
with the invalid-color error naming the offending palette key; the failure
happens in the palette-building phase (the constructor), before any CSS
text is produced, so no partial output exists. -/
theorem c8_invalid_color_aborts (parse : String → Option Color)
    (build : Color → List Color) (config : ColorSystemConfig)
    (h : ∃ kv ∈ config.palettes, parse (kv.2).base = none) :
    ∃ key base, generateCSS parse build config = .error (.invalidColor base key) ∧
      (∃ v, (key, v) ∈ config.palettes ∧ v.base = base) ∧ parse base = none := by
  obtain ⟨key, base, herr, hmem, hpb⟩ :=
    generatePalettes_invalid parse build config.palettes h
  refine ⟨key, base, ?_, hmem, hpb⟩
  unfold generateCSS
  rw [herr]
  rfl

/-- C8 witness: the invalid neutral base color "not-a-color" aborts
generation with the invalid-color error. -/
theorem c8_witness :
    (∃ kv ∈ exConfig.palettes, exParse (kv.2).base = none) ∧
    ∃ key base, generateCSS exParse exBuild exConfig = .error (.invalidColor base key) ∧
      (∃ v, (key, v) ∈ exConfig.palettes ∧ v.base = base) ∧ exParse base = none := by
  have h : ∃ kv ∈ exConfig.palettes, exParse (kv.2).base = none := by
    with_unfolding_all decide
  exact ⟨h, c8_invalid_color_aborts exParse exBuild exConfig h⟩

end AdaptiveCss
